import Mathlib

/-!
Verification of the logger wrapping and call-site attribution subsystem of
the ntest package.  The embedded code is the helper-registry implementation
of the buffered logger (src/unnamed/part_004) together with the subtest
helper ntest.Run (src/t.go); the deadline watchdog, which is exercised only
by TestTimeoutFlush and the Makefile target test-timeout-flush, is modelled
from the specification.
-/

set_option maxHeartbeats 1000000

namespace Ntest

/-- A stack frame as produced by runtime.CallersFrames: fully qualified
function name, source file path, and line number. -/
structure Frame where
  function : String
  file : String
  line : Nat
deriving DecidableEq, Repr

/-- The zero runtime.Frame value, which Frames.Next returns (with more =
false) once no frames remain. -/
def zeroFrame : Frame := ⟨"", "", 0⟩

/-- filepath.Base for unix paths: "." for the empty path, trailing
separators stripped, the part after the last separator, and "/" when the
path consists entirely of separators. -/
def pathBase (p : String) : String :=
  if p = "" then "."
  else
    let stripped := (p.toList.reverse.dropWhile (fun c => c = '/')).reverse
    let tail := stripped.foldl (fun acc c => if c = '/' then [] else acc.concat c) []
    if tail = [] then "/" else String.mk tail

/-- The call-site search loop of bufferedLoggerT.logMessage (part_004 lines
149-172): walk the captured frames, skipping every frame whose function is a
registered helper, and take the first non-helper frame's base file name and
line.  When the last frame is still a helper (more = false) the sentinel
("unknown", 0) results.  With no frames at all, Frames.Next yields the zero
frame, whose empty function name is never registered as a helper, so the
loop records (filepath.Base "", 0) = (".", 0). -/
def resolveCallSite (helpers : List String) : List Frame → String × Nat
  | [] =>
      if !helpers.contains zeroFrame.function then
        (pathBase zeroFrame.file, zeroFrame.line)
      else ("unknown", 0)
  | f :: rest =>
      if !helpers.contains f.function then (pathBase f.file, f.line)
      else if rest.isEmpty then ("unknown", 0)
      else resolveCallSite helpers rest

/-- bufferedLogEntry (part_004 lines 86-90). -/
structure BufferedLogEntry where
  message : String
  file : String
  line : Nat
deriving DecidableEq, Repr

/-- The mutable state of a bufferedLoggerT instance (part_004 lines 76-84):
the helper registry, the set of seen program counters, the ordered entry
buffer, and the cleanup flag. -/
structure BufState where
  helpers : List String
  seen : List Nat
  entries : List BufferedLogEntry
  cleanupCalled : Bool
deriving DecidableEq, Repr

/-- The observable side of the wrapped inner handle: the log calls it has
received, and its failed/skipped state. -/
structure Inner where
  logs : List String
  failed : Bool
  skipped : Bool
deriving DecidableEq, Repr

/-- A freshly wrapped bufferedLoggerT (part_004 lines 110-115). -/
def mkBufState (helpers : List String) : BufState := ⟨helpers, [], [], false⟩

/-- bufferedLoggerT.isHelper (part_004 lines 271-276). -/
def isHelper (st : BufState) (fn : String) : Bool := st.helpers.contains fn

/-- bufferedLoggerT.logMessage (part_004 lines 144-189): resolve the call
site from the frames above Log/Logf, then either emit immediately on the
inner handle (after cleanup, format "[file:line] message") or append a
buffered entry. -/
def logMessage (st : BufState) (t : Inner) (stack : List Frame) (message : String) :
    BufState × Inner :=
  let fl := resolveCallSite st.helpers stack
  if st.cleanupCalled then
    (st, { t with logs := t.logs ++
      ["[" ++ fl.1 ++ ":" ++ toString fl.2 ++ "] " ++ message] })
  else
    ({ st with entries := st.entries ++ [⟨message, fl.1, fl.2⟩] }, t)

/-- One line of the flushed block, Fprintf "%s:%d %s\n" (part_004 line 131). -/
def entryLine (e : BufferedLogEntry) : String :=
  e.file ++ ":" ++ toString e.line ++ " " ++ e.message ++ "\n"

/-- Header of the flushed block (part_004 line 129). -/
def flushHeader : String := "=== Buffered Log Output (test failed) ===\n"

/-- Footer of the flushed block (part_004 line 133). -/
def flushFooter : String := "=== End Buffered Log Output ===\n"

/-- The single string handed to the inner handle's Log by the cleanup flush
(part_004 lines 123-134). -/
def flushBlock (entries : List BufferedLogEntry) : String :=
  flushHeader ++ String.join (entries.map entryLine) ++ flushFooter

/-- The diagnostic emitted when the buffer is dropped (part_004 line 136). -/
def dropDiagnostic (n : Nat) : String :=
  "dropping " ++ toString n ++ " log entries (test passed)"

/-- The cleanup closure registered by BufferedLogger (part_004 lines
118-138): set cleanupCalled, then either emit the flushed block as a single
Log call (when the test failed or was skipped and at least one entry is
buffered) or emit the dropping diagnostic. -/
def cleanupFn (st : BufState) (t : Inner) : BufState × Inner :=
  let st' := { st with cleanupCalled := true }
  if (t.failed || t.skipped) && (st.entries.length != 0) then
    (st', { t with logs := t.logs ++ [flushBlock st.entries] })
  else
    (st', { t with logs := t.logs ++ [dropDiagnostic st.entries.length] })

/-- bufferedLoggerT.markHelper (part_004 lines 252-269).  caller is the
(pc, function name) pair resolved via runtime.Caller and CallersFrames;
none models a failed runtime.Caller (ok = false). -/
def markHelper (st : BufState) (caller : Option (Nat × String)) : BufState :=
  match caller with
  | none => st
  | some (pc, fn) =>
      if st.seen.contains pc then st
      else
        let st' := { st with seen := st.seen ++ [pc] }
        if fn != "" then { st' with helpers := st'.helpers ++ [fn] } else st'

/-- The operations a test performs against one bufferedLoggerT instance. -/
inductive BufOp where
  | log (stack : List Frame) (message : String)
  | mark (caller : Option (Nat × String))
  | cleanup
deriving Repr

/-- One lifecycle step of a bufferedLoggerT instance and its inner handle. -/
def stepOp (s : BufState × Inner) : BufOp → BufState × Inner
  | .log stack msg => logMessage s.1 s.2 stack msg
  | .mark c => (markHelper s.1 c, s.2)
  | .cleanup => cleanupFn s.1 s.2

/-- Run a sequence of lifecycle operations. -/
def runOps (s : BufState × Inner) (ops : List BufOp) : BufState × Inner :=
  ops.foldl stepOp s

/-- Run a sequence of Log/Logf calls, each given by its captured stack and
its formatted message. -/
def runLogs (s : BufState × Inner) (calls : List (List Frame × String)) :
    BufState × Inner :=
  calls.foldl (fun s c => logMessage s.1 s.2 c.1 c.2) s

/-- A Log/Logf call as seen by the resolver: the decorator-internal frames
above it (all registered helpers), the user's originating frame, the frames
below it, and the formatted message. -/
structure UserCall where
  pre : List Frame
  user : Frame
  rest : List Frame
  message : String
deriving DecidableEq, Repr

/-- The captured stack of a user call. -/
def callStack (c : UserCall) : List Frame := c.pre ++ c.user :: c.rest

/-- The buffered entry a user call should produce. -/
def userEntry (c : UserCall) : BufferedLogEntry :=
  ⟨c.message, pathBase c.user.file, c.user.line⟩

/-- Run a sequence of user calls through logMessage. -/
def runUserCalls (s : BufState × Inner) (calls : List UserCall) : BufState × Inner :=
  runLogs s (calls.map fun c => (callStack c, c.message))

namespace Msg

/-- Go fmt.Sprintf "%s %s %s" applied to three strings (part_004 line 71). -/
def sprintf3 (a b c : String) : String := a ++ " " ++ b ++ " " ++ c

/-- A terminal handle that records each message it is given. -/
def sink : String → List String := fun s => [s]

/-- Message-flow semantics of ReplaceLogger / loggerT (part_004 lines
19-53): Log and Logf format their arguments into one message string and
hand it to the installed logger closure.  A handle is modelled by the
function taking the formatted message to the strings reaching the terminal
sink. -/
def ReplaceLogger (logger : String → List String) : String → List String :=
  fun message => logger message

/-- ExtraDetailLogger (part_004 lines 65-73): a ReplaceLogger whose closure
calls t.Logf("%s %s %s", pfx, timestamp, s) on the wrapped handle t; the
impure time.Now().Format("15:04:05") value is the ts parameter. -/
def ExtraDetailLogger (t : String → List String) (pfx ts : String) :
    String → List String :=
  ReplaceLogger (fun s => t (sprintf3 pfx ts s))

end Msg

namespace Chain

/-- The wrapper-chain shapes relevant to ntest.Run (src/t.go lines 108-136):
a native handle (implements the runner interface), a handle supporting
neither Run nor ReWrapper, a loggerT layer (its logger closure identified by
a tag, part_004 lines 13-24), and a bufferedLoggerT layer. -/
inductive Handle where
  | native (id : Nat)
  | plain
  | loggerW (cl : Nat) (inner : Handle)
  | bufferedW (inner : Handle)
deriving DecidableEq, Repr

/-- BufferedLogger (part_004 lines 104-141) at the chain level: when
os.Getenv("NTEST_BUFFERING") is "false" the original handle is returned
directly, otherwise a bufferedLoggerT wrapper is added.  env is the value
of the environment variable ("" when unset). -/
def BufferedLogger (env : String) (t : Handle) : Handle :=
  if env = "false" then t else .bufferedW t

/-- The chain walk of ntest.Run (src/t.go lines 108-136): walk inward
through ReWrapper layers, composing the reWrap closure, until a handle
supporting Run is found; acc is the composed closure.  loggerT.ReWrap
recreates a loggerT around the fresh handle with the same closure (part_004
lines 55-58); bufferedLoggerT.ReWrap calls BufferedLogger on the fresh
handle (part_004 lines 241-244). -/
def runAux (env : String) (fresh : Handle) : Handle → (Handle → Handle) → Option Handle
  | .native _, acc => some (acc fresh)
  | .loggerW cl h, acc => runAux env fresh h (fun t => acc (.loggerW cl t))
  | .bufferedW h, acc => runAux env fresh h (fun t => acc (BufferedLogger env t))
  | .plain, _ => none

/-- ntest.Run (src/t.go lines 108-136), modelled as the handle handed to the
subtest body, where fresh is the fresh native handle spawned by the
underlying Run; none models the unsupported case (one Logf diagnostic, then
Fail, returning false). -/
def Run (env : String) (fresh : Handle) (t : Handle) : Option Handle :=
  runAux env fresh t (fun t => t)

/-- A decoration layer in a ReWrap-capable chain. -/
inductive Layer where
  | loggerL (cl : Nat)
  | bufferedL
deriving DecidableEq, Repr

/-- Apply decoration layers, outermost first, around a core handle. -/
def decorate : List Layer → Handle → Handle
  | [], h => h
  | .loggerL cl :: ls, h => .loggerW cl (decorate ls h)
  | .bufferedL :: ls, h => .bufferedW (decorate ls h)

end Chain

namespace Watchdog

/-- Modelled from the spec: the deadline watchdog of the Buffering Decorator
(spec sections 4.3 and 8) is missing from src/ — only TestTimeoutFlush
(src/logger_test.go lines 452-463) and the Makefile target
test-timeout-flush exercise it.  State of a watchdog-enabled buffering
decorator: the buffered entries, the exactly-once flush latch, and whether
the timer is still armed. -/
structure State where
  entries : List Ntest.BufferedLogEntry
  flushed : Bool
  timerArmed : Bool
deriving DecidableEq, Repr

/-- Modelled from the spec: the watchdog timer is armed iff the underlying
handle exposes a test deadline. -/
def armed (deadline : Option Nat) : Bool := deadline.isSome

/-- Modelled from the spec: the timer fires delta before the deadline
("shortly before that deadline"). -/
def fireTime (deadline delta : Nat) : Nat := deadline - delta

/-- Modelled from the spec: on fire, the watchdog forces an immediate flush
transition, treating the test as failed for purposes of emission; if a
flush already occurred, nothing is emitted (exactly one flush). -/
def fire (st : State) (logs : List String) : State × List String :=
  if st.flushed then (st, logs)
  else
    ({ st with flushed := true, timerArmed := false },
      if st.entries.length != 0 then logs ++ [Ntest.flushBlock st.entries] else logs)

/-- Modelled from the spec: the normal-cleanup flush disarms the timer and
flushes at most once; if the watchdog already flushed, no duplicate output
is emitted. -/
def cleanup (st : State) (failed skipped : Bool) (logs : List String) :
    State × List String :=
  if st.flushed then ({ st with timerArmed := false }, logs)
  else
    ({ st with flushed := true, timerArmed := false },
      if (failed || skipped) && (st.entries.length != 0) then
        logs ++ [Ntest.flushBlock st.entries]
      else logs)

end Watchdog

/-- A decorator-internal frame (a marked helper) used as a concrete input. -/
def exHelperFrame : Frame := ⟨"ntest.loggerT.Log", "/go/ntest/logger.go", 45⟩

/-- A concrete two-call sequence: each call passes through one helper frame
before reaching the user's frame in x_test.go. -/
def exUserCalls : List UserCall :=
  [⟨[exHelperFrame], ⟨"pkg.TestX", "/home/u/pkg/x_test.go", 42⟩, [], "first"⟩,
   ⟨[exHelperFrame], ⟨"pkg.TestX", "/home/u/pkg/x_test.go", 43⟩, [], "second"⟩]

/-- A concrete buffered entry. -/
def exEntry : BufferedLogEntry := ⟨"buffered hi", "logger_test.go", 460⟩

/-! ## Lemmas about the call-site resolver and the collecting phase -/

theorem resolveCallSite_user (helpers : List String) (pre : List Frame) (u : Frame)
    (rest : List Frame) (hpre : ∀ f ∈ pre, helpers.contains f.function = true)
    (hu : helpers.contains u.function = false) :
    resolveCallSite helpers (pre ++ u :: rest) = (pathBase u.file, u.line) := by
  induction pre with
  | nil =>
      rw [List.nil_append]
      simp only [resolveCallSite]
      rw [hu]
      simp
  | cons f pre ih =>
      have hf : helpers.contains f.function = true := hpre f (by simp)
      have hne : (pre ++ u :: rest).isEmpty = false := by
        simp [List.isEmpty_eq_false]
      rw [List.cons_append]
      simp only [resolveCallSite]
      rw [hf, hne]
      simp only [Bool.not_true]
      rw [if_neg (by simp), if_neg (by simp)]
      exact ih (fun g hg => hpre g (List.mem_cons_of_mem f hg))

theorem resolveCallSite_allHelpers (helpers : List String) (f : Frame) (fs : List Frame)
    (h : ∀ g ∈ f :: fs, helpers.contains g.function = true) :
    resolveCallSite helpers (f :: fs) = ("unknown", 0) := by
  induction fs generalizing f with
  | nil =>
      have hf := h f (by simp)
      simp only [resolveCallSite]
      rw [hf]
      simp
  | cons g gs ih =>
      have hf := h f (by simp)
      simp only [resolveCallSite]
      rw [hf]
      simp only [Bool.not_true, List.isEmpty_cons]
      rw [if_neg (by simp), if_neg (by simp)]
      exact ih g (fun x hx => h x (List.mem_cons_of_mem f hx))

theorem logMessage_collecting (st : BufState) (t : Inner) (stack : List Frame)
    (m : String) (hcc : st.cleanupCalled = false) :
    logMessage st t stack m =
      ({ st with entries := st.entries ++
        [⟨m, (resolveCallSite st.helpers stack).1, (resolveCallSite st.helpers stack).2⟩] },
        t) := by
  simp [logMessage, hcc]

theorem runLogs_collecting (calls : List (List Frame × String)) :
    ∀ (st : BufState) (t : Inner), st.cleanupCalled = false →
      (runLogs (st, t) calls).2 = t ∧
      (runLogs (st, t) calls).1.cleanupCalled = false ∧
      (runLogs (st, t) calls).1.helpers = st.helpers ∧
      (runLogs (st, t) calls).1.entries.length = st.entries.length + calls.length := by
  induction calls with
  | nil => intro st t hcc; simp [runLogs, hcc]
  | cons c cs ih =>
      intro st t hcc
      have hstep : logMessage st t c.1 c.2 =
          ({ st with entries := st.entries ++
            [⟨c.2, (resolveCallSite st.helpers c.1).1, (resolveCallSite st.helpers c.1).2⟩] },
            t) :=
        logMessage_collecting st t c.1 c.2 hcc
      have hrun : runLogs (st, t) (c :: cs) =
          runLogs (logMessage st t c.1 c.2) cs := by
        simp [runLogs, List.foldl_cons]
      rw [hrun, hstep]
      have := ih ({ st with entries := st.entries ++
            [⟨c.2, (resolveCallSite st.helpers c.1).1, (resolveCallSite st.helpers c.1).2⟩] })
          t (by simpa using hcc)
      simpa [Nat.add_assoc, Nat.add_comm, Nat.add_left_comm] using this

theorem runUserCalls_spec (calls : List UserCall) :
    ∀ (st : BufState) (t : Inner), st.cleanupCalled = false →
      (∀ c ∈ calls, (∀ f ∈ c.pre, st.helpers.contains f.function = true) ∧
        st.helpers.contains c.user.function = false) →
      runUserCalls (st, t) calls =
        ({ st with entries := st.entries ++ calls.map userEntry }, t) := by
  induction calls with
  | nil => intro st t hcc _; simp [runUserCalls, runLogs]
  | cons c cs ih =>
      intro st t hcc h
      have hc := h c (by simp)
      have hres : resolveCallSite st.helpers (callStack c) =
          (pathBase c.user.file, c.user.line) :=
        resolveCallSite_user st.helpers c.pre c.user c.rest hc.1 hc.2
      have hstep : logMessage st t (callStack c) c.message =
          ({ st with entries := st.entries ++ [userEntry c] }, t) := by
        rw [logMessage_collecting st t (callStack c) c.message hcc, hres]
        rfl
      have hrun : runUserCalls (st, t) (c :: cs) =
          runUserCalls (logMessage st t (callStack c) c.message) cs := by
        simp [runUserCalls, runLogs, List.foldl_cons]
      rw [hrun, hstep]
      have := ih ({ st with entries := st.entries ++ [userEntry c] }) t (by simpa using hcc)
          (fun d hd => by simpa using h d (by simp [hd]))
      simpa [List.append_assoc] using this

theorem stepOp_helpers_mono (s : BufState × Inner) (op : BufOp) (fn : String)
    (h : fn ∈ s.1.helpers) : fn ∈ (stepOp s op).1.helpers := by
  cases op with
  | log stack msg =>
      simp only [stepOp, logMessage]
      split
      · exact h
      · exact h
  | mark c =>
      match c with
      | none => simpa [stepOp, markHelper] using h
      | some (pc, fn2) =>
          simp only [stepOp, markHelper]
          split
          · exact h
          · split
            · exact List.mem_append_left _ h
            · exact h
  | cleanup =>
      simp only [stepOp, cleanupFn]
      split
      · exact h
      · exact h

theorem Chain.runAux_decorate (env : String) (fresh : Chain.Handle) (i : Nat)
    (henv : env ≠ "false") (ls : List Chain.Layer) :
    ∀ acc : Chain.Handle → Chain.Handle,
      Chain.runAux env fresh (Chain.decorate ls (.native i)) acc =
        some (acc (Chain.decorate ls fresh)) := by
  induction ls with
  | nil => intro acc; rfl
  | cons l ls ih =>
      intro acc
      cases l with
      | loggerL cl =>
          simp only [Chain.decorate, Chain.runAux]
          exact ih _
      | bufferedL =>
          simp only [Chain.decorate, Chain.runAux]
          rw [ih _]
          simp [Chain.BufferedLogger, henv]

/-! ## The claims -/

/-- C1 (amended): for every nonempty sequence of N Log/Logf calls on a
BufferedLogger-wrapped handle — each call reaching logMessage through
decorator-internal frames that are all registered helpers, with the user's
originating frame not a helper — in a test that ultimately fails, nothing
reaches the inner handle while the test runs, and the cleanup flush emits
exactly one multi-line log call: the header line, one
"<file>:<line> <message>" line per call in original call order carrying the
base file name and line of the user's originating frame, and the footer
line.  (The amendment: for N = 0 the cleanup emits the dropping diagnostic
instead of an empty header/footer block.) -/
theorem c1_flush_block (hs : List String) (logs0 : List String) (sk : Bool)
    (calls : List UserCall) (hne : calls ≠ [])
    (h : ∀ c ∈ calls, (∀ f ∈ c.pre, hs.contains f.function = true) ∧
      hs.contains c.user.function = false) :
    (runUserCalls (mkBufState hs, ⟨logs0, true, sk⟩) calls).2.logs = logs0 ∧
    (cleanupFn (runUserCalls (mkBufState hs, ⟨logs0, true, sk⟩) calls).1
        (runUserCalls (mkBufState hs, ⟨logs0, true, sk⟩) calls).2).2.logs =
      logs0 ++ [flushHeader ++
        String.join (calls.map fun c =>
          pathBase c.user.file ++ ":" ++ toString c.user.line ++ " " ++ c.message ++ "\n") ++
        flushFooter] := by
  have hrun := runUserCalls_spec calls (mkBufState hs) ⟨logs0, true, sk⟩ rfl h
  rw [hrun]
  refine ⟨rfl, ?_⟩
  simp only [cleanupFn, mkBufState]
  rw [if_pos (by simp [hne])]
  simp [flushBlock, List.map_map, Function.comp_def, entryLine, userEntry]

/-- C1 witness: two user calls from x_test.go lines 42 and 43 through one
helper frame, in a failed test. -/
theorem c1_flush_block_witness :
    exUserCalls ≠ [] ∧
    ((runUserCalls (mkBufState ["ntest.loggerT.Log"], ⟨[], true, false⟩) exUserCalls).2.logs
        = [] ∧
      (cleanupFn
          (runUserCalls (mkBufState ["ntest.loggerT.Log"], ⟨[], true, false⟩) exUserCalls).1
          (runUserCalls (mkBufState ["ntest.loggerT.Log"], ⟨[], true, false⟩)
            exUserCalls).2).2.logs =
        [] ++ [flushHeader ++
          String.join (exUserCalls.map fun c =>
            pathBase c.user.file ++ ":" ++ toString c.user.line ++ " " ++ c.message ++ "\n") ++
          flushFooter]) :=
  ⟨by decide,
    c1_flush_block ["ntest.loggerT.Log"] [] false exUserCalls (by decide) (by decide)⟩

/-- C1 counterexample (the N = 0 case): in a failed test with zero buffered
calls the cleanup emits the single-line dropping diagnostic, not a
multi-line block starting with the header line. -/
theorem c1_counterexample :
    (cleanupFn (mkBufState []) ⟨[], true, false⟩).2.logs =
      ["dropping 0 log entries (test passed)"] ∧
    flushHeader.toList.isPrefixOf "dropping 0 log entries (test passed)".toList = false :=
  ⟨rfl, by decide⟩

/-- C2: for every sequence of Log/Logf calls (any stacks, any messages) on a
BufferedLogger-wrapped handle in a test that passes and is not skipped,
nothing reaches the inner handle during the test, and the cleanup emits only
the diagnostic counting the dropped entries — no buffered entry is ever
emitted. -/
theorem c2_pass_suppression (hs logs0 : List String)
    (calls : List (List Frame × String)) :
    (runLogs (mkBufState hs, ⟨logs0, false, false⟩) calls).2.logs = logs0 ∧
    (cleanupFn (runLogs (mkBufState hs, ⟨logs0, false, false⟩) calls).1
        (runLogs (mkBufState hs, ⟨logs0, false, false⟩) calls).2).2.logs =
      logs0 ++ [dropDiagnostic calls.length] := by
  obtain ⟨h2, hcc, hh, hlen⟩ :=
    runLogs_collecting calls (mkBufState hs) ⟨logs0, false, false⟩ rfl
  refine ⟨by rw [h2], ?_⟩
  rw [h2]
  simp only [cleanupFn, Bool.or_self, Bool.false_and, if_false]
  rw [hlen]
  simp [mkBufState]

/-- C3: with buffering enabled, ntest.Run on any chain of ReWrap-capable
decorator layers over a native handle locates the innermost native handle,
spawns the subtest with the fresh native handle, and re-applies each layer's
ReWrap, so the handle passed to the subtest body carries the same
decorations in the same order as the parent chain. -/
theorem c3_run_rewraps (env : String) (i j : Nat) (ls : List Chain.Layer)
    (henv : env ≠ "false") :
    Chain.Run env (.native j) (Chain.decorate ls (.native i)) =
      some (Chain.decorate ls (.native j)) := by
  simpa [Chain.Run] using Chain.runAux_decorate env (.native j) i henv ls (fun t => t)

/-- C3 witness: the prefix-over-buffer chain loggerW over bufferedW over a
native handle is reconstructed, in the same order, around the fresh native
handle. -/
theorem c3_run_rewraps_witness :
    ("" : String) ≠ "false" ∧
    Chain.Run "" (.native 1) (Chain.decorate [.loggerL 7, .bufferedL] (.native 0)) =
      some (Chain.decorate [.loggerL 7, .bufferedL] (.native 1)) :=
  ⟨by decide, c3_run_rewraps "" 0 1 [.loggerL 7, .bufferedL] (by decide)⟩

/-- C4 (amended): wrapping a handle with ExtraDetailLogger twice and logging
a message yields a message containing both prefixes, applied in the order
the wraps were applied: the innermost (first-applied) prefix appears first
and the outermost (last-applied) prefix after it, each followed by its
timestamp. -/
theorem c4_doubled (p1 ts1 p2 ts2 m : String) :
    Msg.ExtraDetailLogger (Msg.ExtraDetailLogger Msg.sink p1 ts1) p2 ts2 m =
      [p1 ++ " " ++ ts1 ++ " " ++ (p2 ++ " " ++ ts2 ++ " " ++ m)] := rfl

/-- C4 counterexample: wrapping with "P1" then "P2" and logging "hello"
emits "P1 10:00:00 P2 10:00:01 hello" — not the outermost-first rendering,
and not starting with the outermost prefix "P2". -/
theorem c4_counterexample :
    Msg.ExtraDetailLogger (Msg.ExtraDetailLogger Msg.sink "P1" "10:00:00") "P2" "10:00:01"
        "hello" = ["P1 10:00:00 P2 10:00:01 hello"] ∧
    Msg.ExtraDetailLogger (Msg.ExtraDetailLogger Msg.sink "P1" "10:00:00") "P2" "10:00:01"
        "hello" ≠ ["P2 10:00:01 P1 10:00:00 hello"] ∧
    "P2".toList.isPrefixOf "P1 10:00:00 P2 10:00:01 hello".toList = false :=
  ⟨rfl, by decide, by decide⟩

/-- C5 (amended): a Log/Logf call whose captured stack is nonempty and
consists entirely of registered helper frames records exactly the sentinel
("unknown", 0), and logMessage never changes the failed or skipped state of
the test.  (The amendment: when the stack walk yields no frames at all, the
zero frame is used instead, recording (".", 0) — filepath.Base of the empty
path — rather than the sentinel.) -/
theorem c5_sentinel (st : BufState) (t : Inner) (f : Frame) (fs : List Frame)
    (m : String) (hcc : st.cleanupCalled = false)
    (h : ∀ g ∈ f :: fs, st.helpers.contains g.function = true) :
    logMessage st t (f :: fs) m =
      ({ st with entries := st.entries ++ [⟨m, "unknown", 0⟩] }, t) ∧
    (∀ (stack : List Frame) (msg : String) (t2 : Inner),
      (logMessage st t2 stack msg).2.failed = t2.failed ∧
      (logMessage st t2 stack msg).2.skipped = t2.skipped) := by
  constructor
  · have heq := logMessage_collecting st t (f :: fs) m hcc
    rw [resolveCallSite_allHelpers st.helpers f fs h] at heq
    simpa using heq
  · intro stack msg t2
    simp only [logMessage]
    split <;> simp

/-- C5 witness: a single all-helper frame records ("unknown", 0). -/
theorem c5_sentinel_witness :
    (mkBufState ["ntest.loggerT.Log"]).cleanupCalled = false ∧
    (∀ g ∈ [exHelperFrame],
      (mkBufState ["ntest.loggerT.Log"]).helpers.contains g.function = true) ∧
    logMessage (mkBufState ["ntest.loggerT.Log"]) ⟨[], false, false⟩ [exHelperFrame] "m" =
      ({ mkBufState ["ntest.loggerT.Log"] with
          entries := (mkBufState ["ntest.loggerT.Log"]).entries ++ [⟨"m", "unknown", 0⟩] },
        ⟨[], false, false⟩) :=
  ⟨rfl, by decide,
    (c5_sentinel (mkBufState ["ntest.loggerT.Log"]) ⟨[], false, false⟩ exHelperFrame [] "m"
      rfl (by decide)).1⟩

/-- C5 counterexample: with no frames available at all (runtime.Callers
returned nothing), the zero frame is taken as the call site, recording
(".", 0) — filepath.Base of the empty path — not ("unknown", 0). -/
theorem c5_counterexample :
    (logMessage (mkBufState []) ⟨[], false, false⟩ [] "msg").1.entries =
      [⟨"msg", ".", 0⟩] ∧ ("." : String) ≠ "unknown" :=
  ⟨rfl, by decide⟩

/-- C6 (spec-modelled): if the underlying handle exposes a test deadline the
watchdog timer is armed, it fires strictly before the deadline, its firing
forces an immediate flush of the buffered entries (treating the test as
failed for purposes of emission), and the subsequent normal-cleanup flush
emits no duplicate output. -/
theorem c6_watchdog (d delta : Nat) (st : Watchdog.State) (logs : List String)
    (failed sk : Bool) (hdelta : 0 < delta) (hdd : delta ≤ d)
    (hfl : st.flushed = false) (hne : st.entries ≠ []) :
    Watchdog.armed (some d) = true ∧
    Watchdog.armed none = false ∧
    Watchdog.fireTime d delta < d ∧
    (Watchdog.fire st logs).2 = logs ++ [flushBlock st.entries] ∧
    (Watchdog.cleanup (Watchdog.fire st logs).1 failed sk
        (Watchdog.fire st logs).2).2 = logs ++ [flushBlock st.entries] := by
  have hlen : (st.entries.length != 0) = true := by
    refine bne_iff_ne.mpr ?_
    simpa using hne
  have hfire : Watchdog.fire st logs =
      ({ st with flushed := true, timerArmed := false },
        logs ++ [flushBlock st.entries]) := by
    simp [Watchdog.fire, hfl, hlen]
  refine ⟨rfl, rfl, Nat.sub_lt (Nat.lt_of_lt_of_le hdelta hdd) hdelta, ?_, ?_⟩
  · rw [hfire]
  · rw [hfire]
    simp [Watchdog.cleanup]

/-- C6 witness: deadline 10, firing margin 1, one buffered entry, watchdog
fires before a passing test's cleanup; the block is flushed once. -/
theorem c6_watchdog_witness :
    (0 < 1 ∧ 1 ≤ 10 ∧ (⟨[exEntry], false, true⟩ : Watchdog.State).flushed = false ∧
      (⟨[exEntry], false, true⟩ : Watchdog.State).entries ≠ []) ∧
    (Watchdog.armed (some 10) = true ∧
      Watchdog.armed none = false ∧
      Watchdog.fireTime 10 1 < 10 ∧
      (Watchdog.fire ⟨[exEntry], false, true⟩ []).2 = [] ++ [flushBlock [exEntry]] ∧
      (Watchdog.cleanup (Watchdog.fire ⟨[exEntry], false, true⟩ []).1 false false
          (Watchdog.fire ⟨[exEntry], false, true⟩ []).2).2 = [] ++ [flushBlock [exEntry]]) :=
  ⟨⟨by decide, by decide, rfl, by decide⟩,
    c6_watchdog 10 1 ⟨[exEntry], false, true⟩ [] false false (by decide) (by decide) rfl
      (by decide)⟩

/-- C7: when NTEST_BUFFERING is "false", BufferedLogger is the identity: it
returns the very handle it was given, with no wrapper layer added. -/
theorem c7_identity (t : Chain.Handle) : Chain.BufferedLogger "false" t = t := by
  simp [Chain.BufferedLogger]

/-- C8: every Log/Logf call made after the cleanup flush has run is emitted
immediately on the inner handle, annotated "[<file>:<line>] <message>" with
its resolved call site, with the buffered-logger state left unchanged —
neither swallowed nor buffered again. -/
theorem c8_post_flush (st : BufState) (t : Inner) (stack : List Frame) (m : String) :
    logMessage (cleanupFn st t).1 (cleanupFn st t).2 stack m =
      ((cleanupFn st t).1,
        { (cleanupFn st t).2 with logs := (cleanupFn st t).2.logs ++
            ["[" ++ (resolveCallSite st.helpers stack).1 ++ ":" ++
              toString (resolveCallSite st.helpers stack).2 ++ "] " ++ m] }) := by
  have h1 : (cleanupFn st t).1.cleanupCalled = true := by
    simp only [cleanupFn]
    split <;> rfl
  have h2 : (cleanupFn st t).1.helpers = st.helpers := by
    simp only [cleanupFn]
    split <;> rfl
  simp only [logMessage, h1, h2, if_true]

/-- C9: the helper registry of a bufferedLoggerT instance grows
monotonically: once isHelper holds for a function identity, it holds after
any further sequence of log, helper-marking, and cleanup operations —
no operation removes a registered identity. -/
theorem c9_helpers_monotone (ops : List BufOp) (s : BufState × Inner) (fn : String)
    (h : isHelper s.1 fn = true) : isHelper (runOps s ops).1 fn = true := by
  have hmem : fn ∈ s.1.helpers := List.elem_iff.mp h
  suffices hs : fn ∈ (runOps s ops).1.helpers from List.elem_iff.mpr hs
  clear h
  induction ops generalizing s with
  | nil => simpa [runOps] using hmem
  | cons op ops ih =>
      have hstep := stepOp_helpers_mono s op fn hmem
      simpa [runOps, List.foldl_cons] using ih (stepOp s op) hstep

/-- C9 witness: a marked identity survives a later mark of a different
identity, two log calls, and the cleanup. -/
theorem c9_helpers_monotone_witness :
    isHelper (mkBufState ["pkg.helperFn"]) "pkg.helperFn" = true ∧
    isHelper (runOps (mkBufState ["pkg.helperFn"], ⟨[], false, false⟩)
        [.mark (some (11, "pkg.other")), .log [] "m", .cleanup, .log [] "n"]).1
      "pkg.helperFn" = true :=
  ⟨by decide,
    c9_helpers_monotone [.mark (some (11, "pkg.other")), .log [] "m", .cleanup, .log [] "n"]
      (mkBufState ["pkg.helperFn"], ⟨[], false, false⟩) "pkg.helperFn" (by decide)⟩

/-- C10: whenever the cleanup flush emits the buffered block — exactly when
Failed() or Skipped() is true and at least one entry is buffered — the
header line is the fixed string "=== Buffered Log Output (test failed) ===",
including when the test was skipped but did not fail. -/
theorem c10_fixed_header (hs : List String) (seen : List Nat)
    (entries : List BufferedLogEntry) (b : Bool) (logs0 : List String)
    (failed sk : Bool) (hcond : (failed || sk) = true) (hne : entries ≠ []) :
    (cleanupFn ⟨hs, seen, entries, b⟩ ⟨logs0, failed, sk⟩).2.logs =
      logs0 ++ ["=== Buffered Log Output (test failed) ===\n" ++
        String.join (entries.map entryLine) ++ flushFooter] := by
  have hlen : (entries.length != 0) = true := by
    refine bne_iff_ne.mpr ?_
    simpa using hne
  simp [cleanupFn, hcond, hlen, flushBlock, flushHeader]

/-- C10 witness: a skipped-but-not-failed test with one buffered entry still
flushes under the "(test failed)" header. -/
theorem c10_fixed_header_witness :
    ((false || true) = true ∧ ([exEntry] : List BufferedLogEntry) ≠ []) ∧
    (cleanupFn ⟨[], [], [exEntry], false⟩ ⟨[], false, true⟩).2.logs =
      [] ++ ["=== Buffered Log Output (test failed) ===\n" ++
        String.join ([exEntry].map entryLine) ++ flushFooter] :=
  ⟨⟨rfl, by decide⟩,
    c10_fixed_header [] [] [exEntry] false [] false true rfl (by decide)⟩

end Ntest
